import Mathlib

/-!
Verification development for the node-manifest subsystem of
`packages/gatsby/src/utils/node-manifest.ts`.

The TypeScript source is shallowly embedded as executable Lean
definitions:

* JavaScript `Map` and `Set` values are modelled as association lists /
  lists preserving insertion order, with lookup returning the first
  matching key and `set` overwriting in place.
* JavaScript string truthiness (the empty string and `undefined` are
  falsy) is modelled by `strTruthy`; `x || null` is modelled by `orNull`.
* `process.env` and `process.platform` are modelled by an explicit `Env`
  record passed to each function.
* Side effects (reporter calls, filesystem writes, directory creation,
  mutation of the shared error-id set and page-path map) are modelled by
  explicit effect fields threaded through the functions.
* The external redux store, the datastore `getNode` lookup and the
  `deleteNodeManifests` reducer are outside the provided source; they are
  modelled from the spec where noted.
-/

namespace NodeManifest

/-- JavaScript truthiness of a `string | undefined` value: `undefined`
and the empty string are falsy, every other string is truthy. -/
def strTruthy : Option String → Bool
  | some s => s != ""
  | Option.none => false

/-- JavaScript `x || null` on a `string | undefined` value. -/
def orNull (o : Option String) : Option String :=
  if strTruthy o then o else Option.none

/-- Lookup in an insertion-ordered association list (JavaScript `Map.get`):
the first entry with the requested key, if any. -/
def alistGet {α : Type} (l : List (String × α)) (k : String) : Option α :=
  (l.find? (fun kv => kv.1 == k)).map Prod.snd

/-- JavaScript `Map.set`: overwrite the entry for `k` in place if present
(keys are unique in a `Map`, so replacing the first occurrence suffices),
otherwise append a new entry. -/
def alistSet {α : Type} : List (String × α) → String → α → List (String × α)
  | [], k, v => [(k, v)]
  | kv :: rest, k, v =>
    if kv.1 == k then (k, v) :: rest else kv :: alistSet rest k v

/-- JavaScript `Set.add`: append the element unless it is already present. -/
def setAdd (l : List String) (x : String) : List String :=
  if x ∈ l then l else l ++ [x]

/-- Last element of a list satisfying a predicate, computed as a left fold
(mirrors the way repeated `Map.set` calls leave the last write visible). -/
def lastWith {α : Type} (pred : α → Bool) (l : List α) : Option α :=
  l.foldl (fun acc x => if pred x then some x else acc) Option.none

/-- Relevant fields of `IGatsbyPage` (from `redux/types`, modelled from the
spec: `PageSnapshot` with `path`, optional `ownerNodeId`, optional
`context.id` and `pluginCreatorId`). -/
structure IGatsbyPage where
  path : String
  ownerNodeId : Option String
  contextId : Option String
  pluginCreatorId : String
deriving DecidableEq, Repr

/-- Relevant fields of a stored node: plugin nodes carry a `name` used to
recognise `gatsby-plugin-page-creator`; other nodes may have none. -/
structure INode where
  name : Option String
deriving DecidableEq, Repr

/-- A reference to a node by id, as carried inside a manifest request. -/
structure NodeRef where
  id : String
deriving DecidableEq, Repr

/-- Structure `INodeManifest`: a pending manifest request
`{ manifestId, pluginName, node: { id } }`. -/
structure INodeManifest where
  manifestId : String
  pluginName : String
  node : NodeRef
deriving DecidableEq, Repr

/-- The `FoundPageBy` union type of the source. -/
inductive FoundPageBy where
  | ownerNodeId
  | filesystemRouteApi
  | contextId
  | queryTracking
  | none
deriving DecidableEq, Repr

/-- The JavaScript string literal denoted by each `FoundPageBy` member. -/
def FoundPageBy.toJs : FoundPageBy → String
  | FoundPageBy.ownerNodeId => "ownerNodeId"
  | FoundPageBy.filesystemRouteApi => "filesystem-route-api"
  | FoundPageBy.contextId => "context.id"
  | FoundPageBy.queryTracking => "queryTracking"
  | FoundPageBy.none => "none"

/-- Structure `INodeManifestPage`, that is `{ path?: string }`, with `none` standing for the
JavaScript `null` written by `pagePath || null`. -/
structure INodeManifestPage where
  path : Option String
deriving DecidableEq, Repr

/-- Structure `INodeManifestOut`: the manifest object written to disk. -/
structure INodeManifestOut where
  node : NodeRef
  page : INodeManifestPage
  foundPageBy : FoundPageBy
deriving DecidableEq, Repr

/-- Result of `findPageOwnedByNodeId`. -/
structure ResolveOut where
  page : INodeManifestPage
  foundPageBy : FoundPageBy
deriving DecidableEq, Repr

/-- Modelled from the spec: the environment and platform inputs
(`process.env.NODE_ENV`, `process.env.gatsby_log_level`,
`process.env.VERBOSE_NODE_MANIFEST`, `process.platform`). -/
structure Env where
  NODE_ENV : Option String
  gatsby_log_level : Option String
  VERBOSE_NODE_MANIFEST : Option String
  platform : String
deriving DecidableEq, Repr

/-- Modelled from the spec: the snapshot of the external redux store read
by the subsystem. `pages` is the path-to-page map, `nodes` the
id-to-node map, `byNode` the query-tracking index mapping a node id to
the ordered set of page paths that queried it, `programDirectory` the
site root, and `nodeManifests` the pending manifest requests. -/
structure State where
  pages : List (String × IGatsbyPage)
  nodes : List (String × INode)
  byNode : List (String × List String)
  programDirectory : String
  nodeManifests : List INodeManifest
deriving DecidableEq, Repr

/-- True exactly when `process.env.NODE_ENV === "development"` (the `usingPagesMap` flag). -/
def usingPagesMapOf (env : Env) : Bool :=
  env.NODE_ENV == some "development"

/-- The test `fullPage?.ownerNodeId === nodeId` for the page looked up at `path`:
false when the page is missing or has no `ownerNodeId`. -/
def ownerMatch (st : State) (nodeId path : String) : Bool :=
  ((alistGet st.pages path).bind IGatsbyPage.ownerNodeId) == some nodeId

/-- The test `fullPage?.context.id === nodeId` for the page looked up at `path`. -/
def ctxMatch (st : State) (nodeId path : String) : Bool :=
  ((alistGet st.pages path).bind IGatsbyPage.contextId) == some nodeId

/-- The test `nodes.get(fullPage.pluginCreatorId)?.name === "gatsby-plugin-page-creator"`. -/
def creatorIsFsRoute (st : State) (pg : IGatsbyPage) : Bool :=
  ((alistGet st.nodes pg.pluginCreatorId).bind INode.name)
    == some "gatsby-plugin-page-creator"

/-- The candidate page paths iterated by the resolver loop: in development
(`usingPagesMap`) the paths of every page in the pages map, otherwise the
tracked path set for `nodeId` (empty when the index has no entry, in which
case the source skips the loop entirely with the same outcome). -/
def candidatePaths (usingPagesMap : Bool) (st : State) (nodeId : String) :
    List String :=
  if usingPagesMap then st.pages.map (fun kv => kv.2.path)
  else (alistGet st.byNode nodeId).getD []

/-- The `for (const pathOrPageObject of pagePathSetOrMap.values())` loop of
`findPageOwnedByNodeId`, with the loop variables `foundPageBy`,
`ownerPagePath` and `foundOwnerNodeId` made explicit. The `break` at the
top of the loop body fires when the previous iteration matched by
`ownerNodeId`. -/
def scanCandidates (st : State) (nodeId : String) :
    List String → FoundPageBy → Option String → Bool →
    FoundPageBy × Option String
  | [], foundPageBy, ownerPagePath, _ => (foundPageBy, ownerPagePath)
  | path :: rest, foundPageBy, ownerPagePath, foundOwnerNodeId =>
    if foundOwnerNodeId then (foundPageBy, ownerPagePath)
    else
      let fullPage := alistGet st.pages path
      let foundOwnerNodeId2 := ownerMatch st nodeId path
      let foundPageIdInContext := ctxMatch st nodeId path
      let foundPageBy2 :=
        if foundOwnerNodeId2 then FoundPageBy.ownerNodeId
        else
          match fullPage with
          | some pg =>
            if foundPageIdInContext then
              if creatorIsFsRoute st pg then FoundPageBy.filesystemRouteApi
              else FoundPageBy.contextId
            else foundPageBy
          | Option.none => foundPageBy
      let ownerPagePath2 :=
        match fullPage with
        | some pg =>
          if foundOwnerNodeId2 || foundPageIdInContext then some pg.path
          else ownerPagePath
        | Option.none => ownerPagePath
      scanCandidates st nodeId rest foundPageBy2 ownerPagePath2 foundOwnerNodeId2

/-- The provisional page path
`byNode?.get(nodeId)?.values()?.next()?.value`: the first entry of the
tracked path set, or `undefined`. -/
def pagePathDefault (st : State) (nodeId : String) : Option String :=
  (alistGet st.byNode nodeId).bind List.head?

/-- The initial `foundPageBy` value: `queryTracking` when the provisional
page path is truthy, `none` otherwise. -/
def foundPageByDefault (st : State) (nodeId : String) : FoundPageBy :=
  if strTruthy (pagePathDefault st nodeId) then FoundPageBy.queryTracking
  else FoundPageBy.none

/-- The `(foundPageBy, ownerPagePath)` loop state after the candidate loop:
the loop runs only when `pagePathSetOrMap` is truthy (always in
development, and exactly when the tracking index has an entry for `nodeId`
in builds). -/
def scannedPair (env : Env) (st : State) (nodeId : String) :
    FoundPageBy × Option String :=
  if usingPagesMapOf env || (alistGet st.byNode nodeId).isSome then
    scanCandidates st nodeId (candidatePaths (usingPagesMapOf env) st nodeId)
      (foundPageByDefault st nodeId) Option.none false
  else (foundPageByDefault st nodeId, Option.none)

/-- Function `findPageOwnedByNodeId`: resolve the page owned by `nodeId` against the
store snapshot. The provisional answer is the first tracked path,
classified `queryTracking` when truthy and `none` otherwise; a truthy
`ownerPagePath` found by the candidate loop replaces it; the returned path
is `pagePath || null`. -/
def findPageOwnedByNodeId (env : Env) (st : State) (nodeId : String) :
    ResolveOut :=
  let scanned := scannedPair env st nodeId
  let pagePath :=
    if strTruthy scanned.2 then scanned.2 else pagePathDefault st nodeId
  { page := { path := orNull pagePath }, foundPageBy := scanned.1 }

/-- The `foundPageByToLogIds` object, as a lookup on the JavaScript string
keys (a missing key yields `undefined`, modelled as `Option.none`). -/
def foundPageByToLogIds (key : String) : Option String :=
  if key == "none" then some "11801"
  else if key == "context.id" then some "11802"
  else if key == "queryTracking" then some "11803"
  else if key == "filesystem-route-api" then some "success"
  else if key == "ownerNodeId" then some "success"
  else Option.none

/-- Result of `warnAboutNodeManifestMappingProblems`: the returned `logId`
and the error ids emitted through the reporter while running it. -/
structure WarnResult where
  logId : String
  reported : List String
deriving DecidableEq, Repr

/-- Function `warnAboutNodeManifestMappingProblems`, switching on the JavaScript
string value of `foundPageBy` exactly as the source `switch` does; the
`default` case is the `throw` of the impossible-state error, modelled as
`Except.error`. -/
def warnAboutNodeManifestMappingProblems (foundPageBy : String)
    (verbose : Bool) : Except String WarnResult :=
  if foundPageBy == "none" || foundPageBy == "context.id"
      || foundPageBy == "queryTracking" then
    let logId := (foundPageByToLogIds foundPageBy).getD "undefined"
    Except.ok { logId := logId, reported := if verbose then [logId] else [] }
  else if foundPageBy == "filesystem-route-api"
      || foundPageBy == "ownerNodeId" then
    Except.ok { logId := "success", reported := [] }
  else
    Except.error "Node Manifest mapping is in an impossible state"

/-- The action of `warnAboutNodeManifestMappingProblems` on the five
well-typed `FoundPageBy` members (on which the string switch never reaches
its default case). -/
def warnTyped (foundPageBy : FoundPageBy) (verbose : Bool) : WarnResult :=
  match foundPageBy with
  | FoundPageBy.none =>
    { logId := "11801", reported := if verbose then ["11801"] else [] }
  | FoundPageBy.contextId =>
    { logId := "11802", reported := if verbose then ["11802"] else [] }
  | FoundPageBy.queryTracking =>
    { logId := "11803", reported := if verbose then ["11803"] else [] }
  | FoundPageBy.filesystemRouteApi => { logId := "success", reported := [] }
  | FoundPageBy.ownerNodeId => { logId := "success", reported := [] }

/-- Modelled from the spec: `getNode` (from the external datastore, outside
the provided source) looks the full node up by id in the store. -/
def getNode (st : State) (id : String) : Option INode :=
  alistGet st.nodes id

/-- The `verboseLogs` flag of `processNodeManifests`:
`process.env.gatsby_log_level === "verbose" ||
process.env.VERBOSE_NODE_MANIFEST === "true"`. -/
def verboseLogs (env : Env) : Bool :=
  env.gatsby_log_level == some "verbose"
    || env.VERBOSE_NODE_MANIFEST == some "true"

/-- The characters replaced by the `win32` sanitisation regex
(colon, slash, asterisk, question mark, double quote, angle brackets,
pipe, backslash). -/
def windowsReservedChars : List Char :=
  [':', '/', '*', '?', '\"', '<', '>', '|', '\\']

/-- The replacement `fileNameBase.replace(regex, "-")`: every occurrence of a reserved
character becomes a hyphen (each regex alternative is a single
character, so the replacement is a character map). -/
def sanitizeFileNameBase (s : String) : String :=
  String.mk (s.data.map (fun c => if c ∈ windowsReservedChars then '-' else c))

/-- The filename stem used for the artifact: the manifest id, sanitised
only when `process.platform === "win32"`. -/
def fileNameBaseOf (env : Env) (manifestId : String) : String :=
  if env.platform == "win32" then sanitizeFileNameBase manifestId
  else manifestId

/-- Model of `path.join`, interposing `/` between the segments. -/
def joinPath (parts : List String) : String :=
  String.intercalate "/" parts

/-- Model of `path.dirname`: everything before the final `/`, or `.` when the path
has no separator. -/
def dirname (p : String) : String :=
  let parts := p.splitOn "/"
  if parts.length ≤ 1 then "." else String.intercalate "/" parts.dropLast

/-- Result of one `processNodeManifest` call, with its effects explicit:
the returned value, the updated shared error-id set and page-path map, the
filesystem after the write, the directories ensured to exist, the error
ids emitted through the reporter, and the info messages emitted. -/
structure ProcessOut where
  result : Option INodeManifestOut
  errIds : List String
  pathMap : List (String × String)
  fs : List (String × INodeManifestOut)
  ensuredDirs : List String
  reportedErrors : List String
  infos : List String
deriving DecidableEq, Repr

/-- Function `processNodeManifest`: look the node up, resolve its page, run the
mapping-problem warning, write the artifact file and record the page-path
mapping. The filesystem is an association list from file path to written
manifest, with `alistSet` giving the overwrite semantics of `writeJSON`. -/
def processNodeManifest (env : Env) (st : State)
    (inputManifest : INodeManifest) (listOfUniqueErrorIds : List String)
    (nodeManifestPagePathMap : List (String × String))
    (diskFiles : List (String × INodeManifestOut)) : ProcessOut :=
  let nodeId := inputManifest.node.id
  let fullNode := getNode st nodeId
  let noNodeWarningId := "11804"
  match fullNode with
  | Option.none =>
    if verboseLogs env then
      { result := Option.none, errIds := listOfUniqueErrorIds,
        pathMap := nodeManifestPagePathMap, fs := diskFiles,
        ensuredDirs := [], reportedErrors := [noNodeWarningId], infos := [] }
    else
      { result := Option.none,
        errIds := setAdd listOfUniqueErrorIds noNodeWarningId,
        pathMap := nodeManifestPagePathMap, fs := diskFiles,
        ensuredDirs := [], reportedErrors := [], infos := [] }
  | some _ =>
    let r := findPageOwnedByNodeId env st nodeId
    let warn := warnTyped r.foundPageBy (verboseLogs env)
    let errIds2 :=
      if verboseLogs env then listOfUniqueErrorIds
      else if warn.logId == "success" then listOfUniqueErrorIds
      else setAdd listOfUniqueErrorIds warn.logId
    let finalManifest : INodeManifestOut :=
      { node := inputManifest.node, page := r.page,
        foundPageBy := r.foundPageBy }
    let fileNameBase := fileNameBaseOf env inputManifest.manifestId
    let manifestFilePath := joinPath [st.programDirectory, "public",
      "__node-manifests", inputManifest.pluginName, fileNameBase ++ ".json"]
    let manifestFileDir := dirname manifestFilePath
    let diskFiles2 := alistSet diskFiles manifestFilePath finalManifest
    let infos :=
      if verboseLogs env then
        ["Plugin " ++ inputManifest.pluginName
          ++ " created a manifest with the id " ++ fileNameBase]
      else []
    let pathMap2 :=
      if strTruthy r.page.path then
        alistSet nodeManifestPagePathMap (r.page.path.getD "") fileNameBase
      else nodeManifestPagePathMap
    { result := some finalManifest, errIds := errIds2, pathMap := pathMap2,
      fs := diskFiles2, ensuredDirs := [manifestFileDir],
      reportedErrors := warn.reported, infos := infos }

/-- The per-batch accumulator: shared error-id set, page-path map,
filesystem, the processed/failed counters, and accumulated reporter
output. -/
structure BatchAcc where
  errIds : List String
  pathMap : List (String × String)
  fs : List (String × INodeManifestOut)
  processed : Nat
  failed : Nat
  reportedErrors : List String
  infos : List String
deriving DecidableEq, Repr

/-- Function `processNodeManifestTask`: run one manifest through
`processNodeManifest` and bump the processed or failed counter according
to whether it produced a manifest. -/
def processNodeManifestTask (env : Env) (st : State) (acc : BatchAcc)
    (manifest : INodeManifest) : BatchAcc :=
  let out := processNodeManifest env st manifest acc.errIds acc.pathMap acc.fs
  { errIds := out.errIds, pathMap := out.pathMap, fs := out.fs,
    processed := acc.processed + (if out.result.isSome then 1 else 0),
    failed := acc.failed + (if out.result.isSome then 0 else 1),
    reportedErrors := acc.reportedErrors ++ out.reportedErrors,
    infos := acc.infos ++ out.infos }

/-- Modelled from the spec: the `internalActions.deleteNodeManifests`
reducer (outside the provided source) empties the pending manifest
collection as a single action. -/
def deleteNodeManifests (st : State) : State :=
  { st with nodeManifests := [] }

/-- Result of a batch run, with its effects explicit. `result` is the
return value (`null` on the empty fast path), `summaryEmitted` records
whether the end-of-batch reporter summary ran, and `storeAfter` is the
store after the optional `deleteNodeManifests` dispatch. -/
structure BatchOut where
  result : Option (List (String × String))
  pathMap : List (String × String)
  errIds : List String
  fs : List (String × INodeManifestOut)
  processed : Nat
  failed : Nat
  summaryEmitted : Bool
  storeAfter : State
deriving DecidableEq, Repr

/-- Function `processNodeManifests`: the batch orchestrator. The fastq queue runs
every pending request through `processNodeManifestTask` exactly once; the
shared-state mutations happen inside each task body, so the batch is
modelled as a left fold over the pending list in submission order. -/
def processNodeManifests (env : Env) (st : State)
    (diskFiles : List (String × INodeManifestOut)) : BatchOut :=
  let nodeManifests := st.nodeManifests
  let totalManifests := nodeManifests.length
  if totalManifests == 0 then
    { result := Option.none, pathMap := [], errIds := [], fs := diskFiles,
      processed := 0, failed := 0, summaryEmitted := false, storeAfter := st }
  else
    let acc0 : BatchAcc :=
      { errIds := [], pathMap := [], fs := diskFiles, processed := 0,
        failed := 0, reportedErrors := [], infos := [] }
    let acc := nodeManifests.foldl (processNodeManifestTask env st) acc0
    { result := some acc.pathMap, pathMap := acc.pathMap,
      errIds := acc.errIds, fs := acc.fs, processed := acc.processed,
      failed := acc.failed, summaryEmitted := true,
      storeAfter := deleteNodeManifests st }

/-- The page path a request resolves to, if any: `null` when the node is
missing from the store, otherwise the resolver page path. Exactly when
this is non-null does `processNodeManifest` record a page-path map
entry. -/
def resolvedPagePath (env : Env) (st : State) (m : INodeManifest) :
    Option String :=
  if (getNode st m.node.id).isSome then
    (findPageOwnedByNodeId env st m.node.id).page.path
  else Option.none

/-! ### Helper lemmas on the JavaScript-semantics helpers -/

theorem strTruthy_some_iff (s : String) : strTruthy (some s) = true ↔ s ≠ "" := by
  simp [strTruthy]

theorem orNull_ne_none_iff (o : Option String) :
    orNull o ≠ Option.none ↔ strTruthy o = true := by
  cases o with
  | none => simp [orNull, strTruthy]
  | some s =>
    by_cases h : s = ""
    · subst h; simp [orNull, strTruthy]
    · simp [orNull, strTruthy, h]

theorem orNull_eq_some {o : Option String} {s : String}
    (h : orNull o = some s) : o = some s ∧ s ≠ "" := by
  cases o with
  | none => simp [orNull, strTruthy] at h
  | some t =>
    by_cases ht : t = ""
    · subst ht; simp [orNull, strTruthy] at h
    · simp [orNull, strTruthy, ht] at h
      exact ⟨by simp [h], by simp [← h, ht]⟩

theorem orNull_some_of_ne {s : String} (h : s ≠ "") :
    orNull (some s) = some s := by
  simp [orNull, strTruthy, h]

theorem alistGet_nil {α : Type} (k : String) :
    alistGet ([] : List (String × α)) k = Option.none := rfl

theorem alistGet_cons {α : Type} (kv : String × α) (l : List (String × α))
    (k : String) :
    alistGet (kv :: l) k =
      if kv.1 == k then some kv.2 else alistGet l k := by
  cases h : kv.1 == k with
  | true => simp [alistGet, List.find?_cons_of_pos, h]
  | false => simp [alistGet, List.find?_cons_of_neg, h]

theorem alistGet_mem_snd {α : Type} {l : List (String × α)} {k : String}
    {v : α} (h : alistGet l k = some v) : v ∈ l.map Prod.snd := by
  induction l with
  | nil => simp [alistGet] at h
  | cons kv l ih =>
    rw [alistGet_cons] at h
    by_cases hk : kv.1 == k
    · simp [hk] at h
      simp [← h]
    · simp [hk] at h
      simp [ih h]

theorem alistGet_alistSet_self {α : Type} (l : List (String × α))
    (k : String) (v : α) : alistGet (alistSet l k v) k = some v := by
  induction l with
  | nil => simp [alistSet, alistGet_cons]
  | cons kv l ih =>
    by_cases hk : (kv.1 == k) = true
    · simp [alistSet, hk, alistGet_cons]
    · simp only [alistSet, hk, if_false, Bool.false_eq_true]
      rw [alistGet_cons]
      simp [hk, ih]

theorem alistGet_alistSet_ne {α : Type} (l : List (String × α))
    {k k2 : String} (h : k2 ≠ k) (v : α) :
    alistGet (alistSet l k v) k2 = alistGet l k2 := by
  have hkk2 : (k == k2) = false := beq_eq_false_iff_ne.mpr (Ne.symm h)
  induction l with
  | nil => simp [alistSet, alistGet_cons, alistGet_nil, hkk2]
  | cons kv l ih =>
    by_cases hk : (kv.1 == k) = true
    · have hkeq : kv.1 = k := by simpa using hk
      simp only [alistSet, hk, if_true]
      rw [alistGet_cons, alistGet_cons]
      simp [hkk2, hkeq]
    · simp only [alistSet, hk, Bool.false_eq_true, if_false]
      rw [alistGet_cons, alistGet_cons]
      by_cases hk2 : (kv.1 == k2) = true
      · simp [hk2]
      · simp [hk2, ih]

theorem mem_keys_alistSet {α : Type} {l : List (String × α)} {k x : String}
    {v : α} (h : x ∈ (alistSet l k v).map Prod.fst) :
    x ∈ l.map Prod.fst ∨ x = k := by
  induction l with
  | nil => simp [alistSet] at h; simp [h]
  | cons kv l ih =>
    by_cases hk : (kv.1 == k) = true
    · simp only [alistSet, hk, if_true, List.map_cons, List.mem_cons] at h
      rcases h with h | h
      · right; exact h
      · left; simp [h]
    · simp only [alistSet, hk, Bool.false_eq_true, if_false] at h
      simp only [List.map_cons, List.mem_cons] at h
      rcases h with h | h
      · left; simp [h]
      · rcases ih h with h2 | h2
        · left; simp [h2]
        · right; exact h2

theorem alistSet_keys_nodup {α : Type} {l : List (String × α)}
    (h : (l.map Prod.fst).Nodup) (k : String) (v : α) :
    ((alistSet l k v).map Prod.fst).Nodup := by
  induction l with
  | nil => simp [alistSet]
  | cons kv l ih =>
    simp only [List.map_cons, List.nodup_cons] at h
    by_cases hk : (kv.1 == k) = true
    · have hkeq : kv.1 = k := by simpa using hk
      simp only [alistSet, hk, if_true, List.map_cons, List.nodup_cons]
      exact ⟨by rw [← hkeq]; exact h.1, h.2⟩
    · simp only [alistSet, hk, Bool.false_eq_true, if_false]
      simp only [List.map_cons, List.nodup_cons]
      constructor
      · intro hmem
        rcases mem_keys_alistSet hmem with h2 | h2
        · exact h.1 h2
        · rw [h2] at hk
          simp at hk
      · exact ih h.2

/-! ### Lemmas about the resolver loop -/

theorem exists_page_of_ownerMatch {st : State} {n p : String}
    (h : ownerMatch st n p = true) : ∃ fp, alistGet st.pages p = some fp := by
  cases hfp : alistGet st.pages p with
  | none => rw [ownerMatch, hfp] at h; simp at h
  | some fp => exact ⟨fp, rfl⟩

theorem exists_page_of_ctxMatch {st : State} {n p : String}
    (h : ctxMatch st n p = true) : ∃ fp, alistGet st.pages p = some fp := by
  cases hfp : alistGet st.pages p with
  | none => rw [ctxMatch, hfp] at h; simp at h
  | some fp => exact ⟨fp, rfl⟩

theorem scan_stop (st : State) (n : String) (l : List String)
    (fb : FoundPageBy) (acc : Option String) :
    scanCandidates st n l fb acc true = (fb, acc) := by
  cases l with
  | nil => rfl
  | cons p rest => simp [scanCandidates]

theorem scan_no_match {st : State} {n : String} {l : List String}
    (h : ∀ q ∈ l, ownerMatch st n q = false ∧ ctxMatch st n q = false)
    (fb : FoundPageBy) (acc : Option String) :
    scanCandidates st n l fb acc false = (fb, acc) := by
  induction l generalizing fb acc with
  | nil => rfl
  | cons q rest ih =>
    have hq := h q (by simp)
    have hrest : ∀ x ∈ rest, ownerMatch st n x = false ∧ ctxMatch st n x = false :=
      fun x hx => h x (by simp [hx])
    simp only [scanCandidates, Bool.false_eq_true, if_false, hq.1, hq.2]
    cases hfp : alistGet st.pages q with
    | none => simpa using ih hrest fb acc
    | some pg => simpa using ih hrest fb acc

theorem scan_append_no_owner {st : State} {n : String} {l1 : List String}
    (h : ∀ q ∈ l1, ownerMatch st n q = false) (rest : List String)
    (fb : FoundPageBy) (acc : Option String) :
    scanCandidates st n (l1 ++ rest) fb acc false =
      scanCandidates st n rest (scanCandidates st n l1 fb acc false).1
        (scanCandidates st n l1 fb acc false).2 false := by
  induction l1 generalizing fb acc with
  | nil => simp [scanCandidates]
  | cons q l1 ih =>
    have hq : ownerMatch st n q = false := h q (by simp)
    have hl1 : ∀ x ∈ l1, ownerMatch st n x = false :=
      fun x hx => h x (by simp [hx])
    simp only [List.cons_append, scanCandidates, Bool.false_eq_true,
      if_false, hq]
    cases hfp : alistGet st.pages q with
    | none => simpa using ih hl1 fb acc
    | some pg => simpa using ih hl1 _ _

theorem scan_owner_hit {st : State} {n : String} {l1 : List String}
    (h1 : ∀ q ∈ l1, ownerMatch st n q = false) {p : String}
    {fp : IGatsbyPage} (hp : ownerMatch st n p = true)
    (hfp : alistGet st.pages p = some fp) (l2 : List String)
    (fb : FoundPageBy) (acc : Option String) :
    scanCandidates st n (l1 ++ p :: l2) fb acc false =
      (FoundPageBy.ownerNodeId, some fp.path) := by
  rw [scan_append_no_owner h1]
  simp only [scanCandidates, Bool.false_eq_true, if_false, hp, hfp,
    if_true, Bool.true_or]
  exact scan_stop st n l2 FoundPageBy.ownerNodeId (some fp.path)

theorem scan_ctx_last {st : State} {n : String} {l1 : List String}
    (h1 : ∀ q ∈ l1, ownerMatch st n q = false) {p : String}
    {fp : IGatsbyPage} (hpo : ownerMatch st n p = false)
    (hpc : ctxMatch st n p = true) (hfp : alistGet st.pages p = some fp)
    {l2 : List String}
    (h2 : ∀ q ∈ l2, ownerMatch st n q = false ∧ ctxMatch st n q = false)
    (fb : FoundPageBy) (acc : Option String) :
    scanCandidates st n (l1 ++ p :: l2) fb acc false =
      ((if creatorIsFsRoute st fp then FoundPageBy.filesystemRouteApi
        else FoundPageBy.contextId), some fp.path) := by
  rw [scan_append_no_owner h1]
  simp only [scanCandidates, Bool.false_eq_true, if_false, hpo, hpc, hfp,
    if_true, Bool.or_true]
  exact scan_no_match h2 _ _

theorem scan_cases (st : State) (n : String) (l : List String)
    (fb : FoundPageBy) (acc : Option String) (o : Bool) :
    scanCandidates st n l fb acc o = (fb, acc) ∨
      ∃ p fp, alistGet st.pages p = some fp ∧
        (scanCandidates st n l fb acc o).2 = some fp.path ∧
        ((scanCandidates st n l fb acc o).1 = FoundPageBy.ownerNodeId ∨
         (scanCandidates st n l fb acc o).1 = FoundPageBy.filesystemRouteApi ∨
         (scanCandidates st n l fb acc o).1 = FoundPageBy.contextId) := by
  induction l generalizing fb acc o with
  | nil => left; rfl
  | cons q rest ih =>
    cases o with
    | true => left; exact scan_stop st n (q :: rest) fb acc
    | false =>
      by_cases hqo : ownerMatch st n q = true
      · obtain ⟨fp, hfp⟩ := exists_page_of_ownerMatch hqo
        simp only [scanCandidates, Bool.false_eq_true, if_false, hqo, hfp,
          if_true, Bool.true_or]
        rcases ih FoundPageBy.ownerNodeId (some fp.path) true with heq | hex
        · right
          refine ⟨q, fp, hfp, ?_⟩
          rw [heq]
          simp
        · right
          obtain ⟨p2, fp2, hfp2, hsnd, hfst⟩ := hex
          exact ⟨p2, fp2, hfp2, hsnd, hfst⟩
      · have hqo2 : ownerMatch st n q = false := by simpa using hqo
        by_cases hqc : ctxMatch st n q = true
        · obtain ⟨fp, hfp⟩ := exists_page_of_ctxMatch hqc
          simp only [scanCandidates, Bool.false_eq_true, if_false, hqo2,
            hqc, hfp, if_true, Bool.or_true]
          by_cases hcr : creatorIsFsRoute st fp = true
          · simp only [hcr, if_true]
            rcases ih FoundPageBy.filesystemRouteApi (some fp.path) false with heq | hex
            · right
              refine ⟨q, fp, hfp, ?_⟩
              rw [heq]
              simp
            · right
              obtain ⟨p2, fp2, hfp2, hsnd, hfst⟩ := hex
              exact ⟨p2, fp2, hfp2, hsnd, hfst⟩
          · simp only [hcr, if_false, Bool.false_eq_true]
            rcases ih FoundPageBy.contextId (some fp.path) false with heq | hex
            · right
              refine ⟨q, fp, hfp, ?_⟩
              rw [heq]
              simp
            · right
              obtain ⟨p2, fp2, hfp2, hsnd, hfst⟩ := hex
              exact ⟨p2, fp2, hfp2, hsnd, hfst⟩
        · have hqc2 : ctxMatch st n q = false := by simpa using hqc
          have hstep : scanCandidates st n (q :: rest) fb acc false =
              scanCandidates st n rest fb acc false := by
            simp only [scanCandidates, Bool.false_eq_true, if_false, hqo2, hqc2]
            cases hfp : alistGet st.pages q with
            | none => simp
            | some pg => simp
          rw [hstep]
          exact ih fb acc false

/-! ### Lemmas about the assembled resolver -/

theorem findPage_foundPageBy (env : Env) (st : State) (n : String) :
    (findPageOwnedByNodeId env st n).foundPageBy = (scannedPair env st n).1 :=
  rfl

theorem findPage_path (env : Env) (st : State) (n : String) :
    (findPageOwnedByNodeId env st n).page.path =
      orNull (if strTruthy (scannedPair env st n).2 then (scannedPair env st n).2
        else pagePathDefault st n) := rfl

theorem collection_cond {env : Env} {st : State} {n : String}
    (h : candidatePaths (usingPagesMapOf env) st n ≠ []) :
    (usingPagesMapOf env || (alistGet st.byNode n).isSome) = true := by
  cases hu : usingPagesMapOf env with
  | true => simp
  | false =>
    simp only [hu, Bool.false_or]
    rw [candidatePaths, if_neg (by simp [hu])] at h
    cases hb : alistGet st.byNode n with
    | none => rw [hb] at h; simp at h
    | some l => simp

theorem scannedPair_eq {env : Env} {st : State} {n : String}
    (hcond : (usingPagesMapOf env || (alistGet st.byNode n).isSome) = true)
    {out : FoundPageBy × Option String}
    (hscan : scanCandidates st n (candidatePaths (usingPagesMapOf env) st n)
      (foundPageByDefault st n) Option.none false = out) :
    scannedPair env st n = out := by
  rw [scannedPair, if_pos hcond, hscan]

/-! ### Concrete environments and states used by witnesses and
counterexamples -/

/-- A build-mode, non-verbose environment on a permissive platform. -/
def buildEnv : Env :=
  { NODE_ENV := Option.none, gatsby_log_level := Option.none,
    VERBOSE_NODE_MANIFEST := Option.none, platform := "linux" }

/-- A development-mode environment (`NODE_ENV=development`). -/
def devEnv : Env := { buildEnv with NODE_ENV := some "development" }

/-! ### Claim C1 -/

/-- C1 (amended): if some candidate page (looked up successfully in the
pages map) has `ownerNodeId = nodeId`, and the first such page in candidate
iteration order has a non-empty path, then `findPageOwnedByNodeId` returns
`foundPageBy = ownerNodeId` with the path of that page, and the scan of the
candidate list stops at that candidate: the loop result is
`(ownerNodeId, that path)` for every choice of loop state and of later
candidates, no matter how many of them match via `context.id` or appear in
the tracking index. -/
theorem c1_owner_first_match (env : Env) (st : State) (n : String)
    (l1 : List String) (p : String) (l2 : List String) (fp : IGatsbyPage)
    (hcand : candidatePaths (usingPagesMapOf env) st n = l1 ++ p :: l2)
    (h1 : ∀ q ∈ l1, ownerMatch st n q = false)
    (hp : ownerMatch st n p = true)
    (hfp : alistGet st.pages p = some fp)
    (hpath : fp.path ≠ "") :
    (findPageOwnedByNodeId env st n).foundPageBy = FoundPageBy.ownerNodeId ∧
    (findPageOwnedByNodeId env st n).page.path = some fp.path ∧
    ∀ (fb : FoundPageBy) (acc : Option String) (l3 : List String),
      scanCandidates st n (l1 ++ p :: l3) fb acc false =
        (FoundPageBy.ownerNodeId, some fp.path) := by
  have hcond := @collection_cond env st n (by rw [hcand]; simp)
  have hsp : scannedPair env st n = (FoundPageBy.ownerNodeId, some fp.path) :=
    scannedPair_eq hcond
      (by rw [hcand]; exact scan_owner_hit h1 hp hfp l2 _ _)
  have htr : strTruthy (some fp.path) = true := by
    simp [strTruthy, hpath]
  refine ⟨?_, ?_, fun fb acc l3 => scan_owner_hit h1 hp hfp l3 fb acc⟩
  · rw [findPage_foundPageBy, hsp]
  · rw [findPage_path, hsp]
    simp only [htr, if_true]
    exact orNull_some_of_ne hpath

/-- An owner page of node `"n"` whose path is the empty string. -/
def pgEmptyOwner : IGatsbyPage :=
  { path := "", ownerNodeId := some "n", contextId := Option.none,
    pluginCreatorId := "pc" }

/-- The state of the C1 counterexample: the single tracked candidate
(stored under the map key `"q"`) owner-matches `"n"` but its page has the
empty path. -/
def stC1 : State :=
  { pages := [("q", pgEmptyOwner)],
    nodes := [], byNode := [("n", ["q"])], programDirectory := "",
    nodeManifests := [] }

/-- C1 as stated is false: in `stC1` the candidate set is exactly `["q"]`,
its page owner-matches `"n"` and has path `""`, yet the resolver returns
`page.path = some "q"` (the provisional tracked path) rather than the
path of the matching page, because the empty string is falsy in
JavaScript. -/
theorem c1_counterexample :
    candidatePaths (usingPagesMapOf buildEnv) stC1 "n" = ["q"] ∧
    ownerMatch stC1 "n" "q" = true ∧
    (alistGet stC1.pages "q").map IGatsbyPage.path = some "" ∧
    (findPageOwnedByNodeId buildEnv stC1 "n").foundPageBy
      = FoundPageBy.ownerNodeId ∧
    (findPageOwnedByNodeId buildEnv stC1 "n").page.path ≠ some "" := by
  decide

/-- A context-matching page at `"/a"` for node `"n"`. -/
def pageWa : IGatsbyPage :=
  { path := "/a", ownerNodeId := Option.none, contextId := some "n",
    pluginCreatorId := "pc" }

/-- The first owner-matching page of `stW1`, at `"/b"`. -/
def pageW1 : IGatsbyPage :=
  { path := "/b", ownerNodeId := some "n", contextId := Option.none,
    pluginCreatorId := "pc" }

/-- A second owner-matching page at `"/c"`. -/
def pageWc : IGatsbyPage :=
  { path := "/c", ownerNodeId := some "n", contextId := Option.none,
    pluginCreatorId := "pc" }

/-- The state of the C1 witness: the first candidate matches only by
`context.id`, the second and third match by `ownerNodeId`. -/
def stW1 : State :=
  { pages := [("/a", pageWa), ("/b", pageW1), ("/c", pageWc)],
    nodes := [], byNode := [("n", ["/a", "/b", "/c"])],
    programDirectory := "", nodeManifests := [] }

/-- Witness for C1 at a concrete input: in `stW1` the first owner match is
`"/b"` and the resolver returns it, ignoring the later owner match. -/
theorem c1_owner_first_match_witness :
    (findPageOwnedByNodeId buildEnv stW1 "n").foundPageBy
      = FoundPageBy.ownerNodeId ∧
    (findPageOwnedByNodeId buildEnv stW1 "n").page.path = some "/b" ∧
    scanCandidates stW1 "n" (["/a"] ++ "/b" :: []) FoundPageBy.none
      Option.none false = (FoundPageBy.ownerNodeId, some "/b") := by
  have h := c1_owner_first_match buildEnv stW1 "n" ["/a"] "/b" ["/c"] pageW1
    (by decide) (by decide) (by decide) (by decide) (by decide)
  exact ⟨h.1, h.2.1, h.2.2 FoundPageBy.none Option.none []⟩

/-! ### Claim C2 -/

/-- C2 (amended): if no candidate matches by `ownerNodeId` and `p` is the
last candidate matching by `context.id`, with a successfully looked-up
page of non-empty path, then the resolver returns the path of that page, with
`foundPageBy = filesystem-route-api` when the node looked up by the
`pluginCreatorId` of the page has name `gatsby-plugin-page-creator` and
`foundPageBy = context.id` otherwise. -/
theorem c2_ctx_match (env : Env) (st : State) (n : String)
    (l1 : List String) (p : String) (l2 : List String) (fp : IGatsbyPage)
    (hcand : candidatePaths (usingPagesMapOf env) st n = l1 ++ p :: l2)
    (hno : ∀ q ∈ l1 ++ p :: l2, ownerMatch st n q = false)
    (hpc : ctxMatch st n p = true)
    (h2 : ∀ q ∈ l2, ctxMatch st n q = false)
    (hfp : alistGet st.pages p = some fp)
    (hpath : fp.path ≠ "") :
    (findPageOwnedByNodeId env st n).page.path = some fp.path ∧
    (findPageOwnedByNodeId env st n).foundPageBy =
      (if creatorIsFsRoute st fp then FoundPageBy.filesystemRouteApi
       else FoundPageBy.contextId) := by
  have h1 : ∀ q ∈ l1, ownerMatch st n q = false :=
    fun q hq => hno q (by simp [hq])
  have hpo : ownerMatch st n p = false := hno p (by simp)
  have h2b : ∀ q ∈ l2, ownerMatch st n q = false ∧ ctxMatch st n q = false :=
    fun q hq => ⟨hno q (by simp [hq]), h2 q hq⟩
  have hcond := @collection_cond env st n (by rw [hcand]; simp)
  have hsp : scannedPair env st n =
      ((if creatorIsFsRoute st fp then FoundPageBy.filesystemRouteApi
        else FoundPageBy.contextId), some fp.path) :=
    scannedPair_eq hcond
      (by rw [hcand]; exact scan_ctx_last h1 hpo hpc hfp h2b _ _)
  have htr : strTruthy (some fp.path) = true := by
    simp [strTruthy, hpath]
  constructor
  · rw [findPage_path, hsp]
    simp only [htr, if_true]
    exact orNull_some_of_ne hpath
  · rw [findPage_foundPageBy, hsp]

/-- A context-matching page of node `"n"` whose path is the empty
string. -/
def pgEmptyCtx : IGatsbyPage :=
  { path := "", ownerNodeId := Option.none, contextId := some "n",
    pluginCreatorId := "pc" }

/-- The state of the C2 counterexample: the single tracked candidate
(map key `"q"`) context-matches `"n"` but its page has the empty path. -/
def stC2 : State :=
  { pages := [("q", pgEmptyCtx)],
    nodes := [], byNode := [("n", ["q"])], programDirectory := "",
    nodeManifests := [] }

/-- C2 as stated is false: in `stC2` the only candidate context-matches
`"n"` (no candidate owner-matches) and its page has path `""`, the
classification is `context.id` as claimed, but the returned path is the
provisional tracked path `"q"`, not the path of the matching page, because the
empty string is falsy in JavaScript. -/
theorem c2_counterexample :
    candidatePaths (usingPagesMapOf buildEnv) stC2 "n" = ["q"] ∧
    ownerMatch stC2 "n" "q" = false ∧
    ctxMatch stC2 "n" "q" = true ∧
    (alistGet stC2.pages "q").map IGatsbyPage.path = some "" ∧
    (findPageOwnedByNodeId buildEnv stC2 "n").foundPageBy
      = FoundPageBy.contextId ∧
    (findPageOwnedByNodeId buildEnv stC2 "n").page.path ≠ some "" := by
  decide

/-- A page with no owner and no context id, at `"/d"`. -/
def pageWd : IGatsbyPage :=
  { path := "/d", ownerNodeId := Option.none, contextId := Option.none,
    pluginCreatorId := "x" }

/-- The plugin node of the filesystem route creator. -/
def nodeFsCreator : INode := { name := some "gatsby-plugin-page-creator" }

/-- C2 witness state, filesystem branch: the second tracked candidate
context-matches and its creator is `gatsby-plugin-page-creator`. -/
def stW2 : State :=
  { pages := [("/d", pageWd), ("/a", pageWa)],
    nodes := [("pc", nodeFsCreator)], byNode := [("n", ["/d", "/a"])],
    programDirectory := "", nodeManifests := [] }

/-- C2 witness state, `context.id` branch: same pages but the creator node
`"pc"` is absent (only the data node `"n"` exists), so the creator is not
the filesystem plugin. -/
def stW2b : State :=
  { pages := [("/d", pageWd), ("/a", pageWa)],
    nodes := [("n", { name := Option.none })],
    byNode := [("n", ["/d", "/a"])],
    programDirectory := "", nodeManifests := [] }

/-- Witness for C2 at concrete inputs: with a filesystem-plugin creator the
classification is `filesystem-route-api`; without it, `context.id`; in
both cases the path of the matching page is returned. -/
theorem c2_ctx_match_witness :
    (findPageOwnedByNodeId buildEnv stW2 "n").page.path = some "/a" ∧
    (findPageOwnedByNodeId buildEnv stW2 "n").foundPageBy
      = FoundPageBy.filesystemRouteApi ∧
    (findPageOwnedByNodeId buildEnv stW2b "n").foundPageBy
      = FoundPageBy.contextId := by
  have ha := c2_ctx_match buildEnv stW2 "n" ["/d"] "/a" [] pageWa
    (by decide) (by decide) (by decide) (by decide) (by decide) (by decide)
  have hb := c2_ctx_match buildEnv stW2b "n" ["/d"] "/a" [] pageWa
    (by decide) (by decide) (by decide) (by decide) (by decide) (by decide)
  refine ⟨ha.1, ?_, ?_⟩
  · rw [ha.2]; decide
  · rw [hb.2]; decide

/-! ### Claim C3 -/

/-- C3 (amended): if no candidate matches by `ownerNodeId` or `context.id`
and the tracking index has an entry for `nodeId` whose path set is
non-empty with a non-empty first entry, then the resolver returns
`foundPageBy = queryTracking` and that first tracked path — in both the
tracked (build) candidate mode and the full-snapshot (development) mode,
since `env` is arbitrary. -/
theorem c3_query_tracking (env : Env) (st : State) (n : String)
    (paths : List String) (p0 : String)
    (hb : alistGet st.byNode n = some paths)
    (hhead : paths.head? = some p0)
    (hp0 : p0 ≠ "")
    (hno : ∀ q ∈ candidatePaths (usingPagesMapOf env) st n,
      ownerMatch st n q = false ∧ ctxMatch st n q = false) :
    (findPageOwnedByNodeId env st n).foundPageBy
      = FoundPageBy.queryTracking ∧
    (findPageOwnedByNodeId env st n).page.path = some p0 := by
  have hdef : pagePathDefault st n = some p0 := by
    simp [pagePathDefault, hb, hhead]
  have hfb0 : foundPageByDefault st n = FoundPageBy.queryTracking := by
    simp [foundPageByDefault, hdef, strTruthy, hp0]
  have hcond : (usingPagesMapOf env || (alistGet st.byNode n).isSome)
      = true := by simp [hb]
  have hsp : scannedPair env st n =
      (FoundPageBy.queryTracking, Option.none) :=
    scannedPair_eq hcond (by rw [scan_no_match hno, hfb0])
  constructor
  · rw [findPage_foundPageBy, hsp]
  · rw [findPage_path, hsp]
    simp only [strTruthy, Bool.false_eq_true, if_false, hdef]
    exact orNull_some_of_ne hp0

/-- The state of the C3 counterexample: node `"n"` is present in the
tracking index but its first (and only) tracked path is the empty
string, and there are no pages at all. -/
def stC3 : State :=
  { pages := [], nodes := [], byNode := [("n", [""])],
    programDirectory := "", nodeManifests := [] }

/-- C3 as stated is false: in `stC3` the node is present in the tracking
index and no candidate matches by owner or context, yet the resolver
classifies the node as `none` with a null path rather than
`queryTracking` with the first tracked path, because the first tracked
path is the empty string, which is falsy in JavaScript. -/
theorem c3_counterexample :
    alistGet stC3.byNode "n" = some [""] ∧
    (∀ q ∈ candidatePaths (usingPagesMapOf buildEnv) stC3 "n",
      ownerMatch stC3 "n" q = false ∧ ctxMatch stC3 "n" q = false) ∧
    (findPageOwnedByNodeId buildEnv stC3 "n").foundPageBy
      ≠ FoundPageBy.queryTracking ∧
    (findPageOwnedByNodeId buildEnv stC3 "n").page.path = Option.none := by
  decide

/-- C3 witness state: two tracked paths for `"n"`, the first being `"/d"`,
whose page matches neither by owner nor by context. -/
def stW3 : State :=
  { pages := [("/d", pageWd)], nodes := [], byNode := [("n", ["/d", "/e"])],
    programDirectory := "", nodeManifests := [] }

/-- Witness for C3 at a concrete input, in both build and development
mode: the resolver returns `queryTracking` with the first tracked path. -/
theorem c3_query_tracking_witness :
    (findPageOwnedByNodeId buildEnv stW3 "n").foundPageBy
      = FoundPageBy.queryTracking ∧
    (findPageOwnedByNodeId buildEnv stW3 "n").page.path = some "/d" ∧
    (findPageOwnedByNodeId devEnv stW3 "n").foundPageBy
      = FoundPageBy.queryTracking ∧
    (findPageOwnedByNodeId devEnv stW3 "n").page.path = some "/d" := by
  have ha := c3_query_tracking buildEnv stW3 "n" ["/d", "/e"] "/d"
    (by decide) (by decide) (by decide) (by decide)
  have hb := c3_query_tracking devEnv stW3 "n" ["/d", "/e"] "/d"
    (by decide) (by decide) (by decide) (by decide)
  exact ⟨ha.1, ha.2, hb.1, hb.2⟩

/-! ### Claim C4 -/

/-- C4 (amended): for every environment, state and node id, the resolver
outcome (i) has one of the five enumerated `foundPageBy` kinds, (ii)
satisfies `page.path` non-null iff `foundPageBy ≠ none` provided every
page in the pages map has a non-empty path, and (iii) is
`(none, null)` whenever the node id is absent from the tracking index and
no candidate matches by owner or context. -/
theorem c4_invariant (env : Env) (st : State) (n : String) :
    ((findPageOwnedByNodeId env st n).foundPageBy = FoundPageBy.ownerNodeId ∨
     (findPageOwnedByNodeId env st n).foundPageBy
       = FoundPageBy.filesystemRouteApi ∨
     (findPageOwnedByNodeId env st n).foundPageBy = FoundPageBy.contextId ∨
     (findPageOwnedByNodeId env st n).foundPageBy
       = FoundPageBy.queryTracking ∨
     (findPageOwnedByNodeId env st n).foundPageBy = FoundPageBy.none) ∧
    ((∀ kv ∈ st.pages, kv.2.path ≠ "") →
      ((findPageOwnedByNodeId env st n).page.path ≠ Option.none ↔
        (findPageOwnedByNodeId env st n).foundPageBy ≠ FoundPageBy.none)) ∧
    (alistGet st.byNode n = Option.none →
      (∀ q ∈ candidatePaths (usingPagesMapOf env) st n,
        ownerMatch st n q = false ∧ ctxMatch st n q = false) →
      (findPageOwnedByNodeId env st n).foundPageBy = FoundPageBy.none ∧
      (findPageOwnedByNodeId env st n).page.path = Option.none) := by
  refine ⟨?_, ?_, ?_⟩
  · cases hfb : (findPageOwnedByNodeId env st n).foundPageBy <;> simp [hfb]
  · intro hpages
    have hbase : ∀ (hsp : scannedPair env st n
          = (foundPageByDefault st n, Option.none)),
        ((findPageOwnedByNodeId env st n).page.path ≠ Option.none ↔
          (findPageOwnedByNodeId env st n).foundPageBy
            = FoundPageBy.none → False) := by
      intro hsp
      rw [findPage_path, findPage_foundPageBy, hsp]
      simp only [strTruthy, Bool.false_eq_true, if_false]
      rw [orNull_ne_none_iff]
      by_cases hstr : strTruthy (pagePathDefault st n) = true
      · simp [foundPageByDefault, hstr]
      · simp only [Bool.not_eq_true] at hstr
        simp [foundPageByDefault, hstr]
    by_cases hcond : (usingPagesMapOf env
        || (alistGet st.byNode n).isSome) = true
    · rcases scan_cases st n (candidatePaths (usingPagesMapOf env) st n)
        (foundPageByDefault st n) Option.none false with
        heq | ⟨p, fp, hfp, hsnd, hfst⟩
      · exact hbase (scannedPair_eq hcond heq)
      · have hsp2 : (scannedPair env st n).2 = some fp.path := by
          rw [scannedPair, if_pos hcond]; exact hsnd
        have hsp1 : (scannedPair env st n).1 = FoundPageBy.ownerNodeId ∨
            (scannedPair env st n).1 = FoundPageBy.filesystemRouteApi ∨
            (scannedPair env st n).1 = FoundPageBy.contextId := by
          rw [scannedPair, if_pos hcond]; exact hfst
        have hne : fp.path ≠ "" := by
          have hmem := alistGet_mem_snd hfp
          rw [List.mem_map] at hmem
          obtain ⟨kv, hkv, hkveq⟩ := hmem
          rw [← hkveq]
          exact hpages kv hkv
        have hL : (findPageOwnedByNodeId env st n).page.path
            ≠ Option.none := by
          rw [findPage_path, hsp2]
          simp [strTruthy, hne, orNull_some_of_ne hne]
        have hR : (findPageOwnedByNodeId env st n).foundPageBy
            ≠ FoundPageBy.none := by
          rw [findPage_foundPageBy]
          rcases hsp1 with h | h | h <;> simp [h]
        exact iff_of_true hL hR
    · have hsp : scannedPair env st n
          = (foundPageByDefault st n, Option.none) := by
        rw [scannedPair, if_neg hcond]
      exact hbase hsp
  · intro hb hno
    have hdef : pagePathDefault st n = Option.none := by
      simp [pagePathDefault, hb]
    have hfb0 : foundPageByDefault st n = FoundPageBy.none := by
      simp [foundPageByDefault, hdef, strTruthy]
    have hfin : ∀ (hsp : scannedPair env st n
          = (FoundPageBy.none, Option.none)),
        (findPageOwnedByNodeId env st n).foundPageBy = FoundPageBy.none ∧
        (findPageOwnedByNodeId env st n).page.path = Option.none := by
      intro hsp
      constructor
      · rw [findPage_foundPageBy, hsp]
      · rw [findPage_path, hsp]
        simp [strTruthy, hdef, orNull]
    by_cases hcond : (usingPagesMapOf env
        || (alistGet st.byNode n).isSome) = true
    · exact hfin (scannedPair_eq hcond (by rw [scan_no_match hno, hfb0]))
    · exact hfin (by rw [scannedPair, if_neg hcond, hfb0])

/-- The state of the C4 counterexample: development mode sees a single
page whose path is the empty string and which owner-matches `"n"`; the
tracking index is empty. -/
def stC4 : State :=
  { pages := [("", pgEmptyOwner)], nodes := [], byNode := [],
    programDirectory := "", nodeManifests := [] }

/-- C4 as stated is false: in `stC4` (development mode) the resolver
returns `foundPageBy = ownerNodeId` — not `none` — together with a null
`page.path`, violating the claimed equivalence, because the matching
path of that page is the empty string, which is falsy in JavaScript. -/
theorem c4_counterexample :
    (findPageOwnedByNodeId devEnv stC4 "n").foundPageBy
      = FoundPageBy.ownerNodeId ∧
    (findPageOwnedByNodeId devEnv stC4 "n").foundPageBy
      ≠ FoundPageBy.none ∧
    (findPageOwnedByNodeId devEnv stC4 "n").page.path = Option.none := by
  decide

/-- Witness for C4 at concrete inputs: the equivalence holds in `stW1`
(whose page paths are non-empty), and an id absent from all three signals
resolves to `(none, null)`. -/
theorem c4_invariant_witness :
    ((findPageOwnedByNodeId buildEnv stW1 "n").page.path ≠ Option.none ↔
      (findPageOwnedByNodeId buildEnv stW1 "n").foundPageBy
        ≠ FoundPageBy.none) ∧
    (findPageOwnedByNodeId buildEnv stW1 "zz").foundPageBy
      = FoundPageBy.none ∧
    (findPageOwnedByNodeId buildEnv stW1 "zz").page.path = Option.none := by
  refine ⟨(c4_invariant buildEnv stW1 "n").2.1 (by decide), ?_, ?_⟩
  · exact ((c4_invariant buildEnv stW1 "zz").2.2 (by decide) (by decide)).1
  · exact ((c4_invariant buildEnv stW1 "zz").2.2 (by decide) (by decide)).2

/-! ### Claim C5 -/

/-- C5: when the node id of a request has no node in the store,
`processNodeManifest` returns `null`, writes no file and records
diagnostic `11804` — emitted immediately through the reporter when
verbose, otherwise added to the deduplication set — and a batch containing
exactly that request counts it as failed, not processed. -/
theorem c5_missing_node (env : Env) (st : State) (m : INodeManifest)
    (errIds : List String) (pm : List (String × String))
    (fs0 : List (String × INodeManifestOut))
    (h : getNode st m.node.id = Option.none) :
    (processNodeManifest env st m errIds pm fs0).result = Option.none ∧
    (processNodeManifest env st m errIds pm fs0).fs = fs0 ∧
    (processNodeManifest env st m errIds pm fs0).pathMap = pm ∧
    (processNodeManifest env st m errIds pm fs0).ensuredDirs = [] ∧
    (verboseLogs env = true →
      (processNodeManifest env st m errIds pm fs0).reportedErrors
        = ["11804"] ∧
      (processNodeManifest env st m errIds pm fs0).errIds = errIds) ∧
    (verboseLogs env = false →
      (processNodeManifest env st m errIds pm fs0).reportedErrors = [] ∧
      (processNodeManifest env st m errIds pm fs0).errIds
        = setAdd errIds "11804") ∧
    (processNodeManifests env { st with nodeManifests := [m] } fs0).failed
      = 1 ∧
    (processNodeManifests env { st with nodeManifests := [m] } fs0).processed
      = 0 := by
  have h2 : alistGet st.nodes m.node.id = Option.none := h
  by_cases hv : verboseLogs env = true
  · simp [processNodeManifest, processNodeManifests,
      processNodeManifestTask, getNode, h2, hv]
  · have hv2 : verboseLogs env = false := by simpa using hv
    simp [processNodeManifest, processNodeManifests,
      processNodeManifestTask, getNode, h2, hv2]

/-- A pending request whose node id is absent from `stW1`. -/
def mMissing : INodeManifest :=
  { manifestId := "mid", pluginName := "plug", node := { id := "ghost" } }

/-- Witness for C5 at a concrete input: processing `mMissing` against
`stW1` (non-verbose) yields no manifest, records `11804` in the
deduplication set, and the singleton batch counts one failure. -/
theorem c5_missing_node_witness :
    (processNodeManifest buildEnv stW1 mMissing [] [] []).result
      = Option.none ∧
    (processNodeManifest buildEnv stW1 mMissing [] [] []).fs = [] ∧
    (processNodeManifest buildEnv stW1 mMissing [] [] []).errIds
      = setAdd [] "11804" ∧
    (processNodeManifests buildEnv
      { stW1 with nodeManifests := [mMissing] } []).failed = 1 ∧
    (processNodeManifests buildEnv
      { stW1 with nodeManifests := [mMissing] } []).processed = 0 := by
  have h := c5_missing_node buildEnv stW1 mMissing [] [] [] (by decide)
  exact ⟨h.1, h.2.1, (h.2.2.2.2.2.1 (by decide)).2, h.2.2.2.2.2.2.1,
    h.2.2.2.2.2.2.2⟩

/-! ### Claim C6 -/

/-- C6: on each of the five `FoundPageBy` kinds the string-switch of
`warnAboutNodeManifestMappingProblems` returns normally (never reaching
the impossible-state throw) with the `logId` given by the fixed table
(`none` to `11801`, `context.id` to `11802`, `queryTracking` to `11803`,
`filesystem-route-api` and `ownerNodeId` to `success`); a non-`success` id
is emitted through the reporter exactly when verbose, and in the
non-verbose case the calling `processNodeManifest` adds it to the
deduplication set. -/
theorem c6_warn_table (fb : FoundPageBy) (v : Bool) :
    warnAboutNodeManifestMappingProblems (FoundPageBy.toJs fb) v
      = Except.ok (warnTyped fb v) ∧
    (warnTyped FoundPageBy.none v).logId = "11801" ∧
    (warnTyped FoundPageBy.contextId v).logId = "11802" ∧
    (warnTyped FoundPageBy.queryTracking v).logId = "11803" ∧
    (warnTyped FoundPageBy.filesystemRouteApi v).logId = "success" ∧
    (warnTyped FoundPageBy.ownerNodeId v).logId = "success" ∧
    ((warnTyped fb v).logId ≠ "success" →
      (warnTyped fb v).reported
        = if v then [(warnTyped fb v).logId] else []) ∧
    ((warnTyped fb v).logId = "success" →
      (warnTyped fb v).reported = []) ∧
    (∀ (env : Env) (st : State) (m : INodeManifest) (errIds : List String)
        (pm : List (String × String))
        (fs0 : List (String × INodeManifestOut)),
      verboseLogs env = false → (getNode st m.node.id).isSome = true →
      (processNodeManifest env st m errIds pm fs0).errIds =
        (if (warnTyped (findPageOwnedByNodeId env st m.node.id).foundPageBy
              false).logId = "success" then errIds
         else setAdd errIds
           (warnTyped (findPageOwnedByNodeId env st
              m.node.id).foundPageBy false).logId)) := by
  refine ⟨?_, ?_, ?_, ?_, ?_, ?_, ?_, ?_, ?_⟩
  · cases fb <;> cases v <;> rfl
  · rfl
  · rfl
  · rfl
  · rfl
  · rfl
  · cases fb <;> cases v <;> simp [warnTyped]
  · cases fb <;> cases v <;> simp [warnTyped]
  · intro env st m errIds pm fs0 hv hnode
    obtain ⟨nd, hnd⟩ := Option.isSome_iff_exists.mp hnode
    simp only [processNodeManifest, hnd, hv, Bool.false_eq_true, if_false]
    by_cases hs : (warnTyped (findPageOwnedByNodeId env st
        m.node.id).foundPageBy false).logId = "success"
    · simp [hs]
    · simp [hs]

/-- Witness for C6 at concrete inputs: the `queryTracking` diagnostic is
`11803`, it is reported exactly under verbosity, and the non-verbose
caller records `11802` for a context-id resolution of `stW2b`. -/
theorem c6_warn_table_witness :
    warnAboutNodeManifestMappingProblems "queryTracking" true
      = Except.ok (warnTyped FoundPageBy.queryTracking true) ∧
    (warnTyped FoundPageBy.queryTracking true).reported = ["11803"] ∧
    (warnTyped FoundPageBy.ownerNodeId true).reported = [] ∧
    (processNodeManifest buildEnv stW2b
        { manifestId := "mid", pluginName := "plug", node := { id := "n" } }
        [] [] []).errIds = setAdd [] "11802" := by
  have h := c6_warn_table FoundPageBy.queryTracking true
  have h2 := c6_warn_table FoundPageBy.ownerNodeId true
  refine ⟨h.1, ?_, h2.2.2.2.2.2.2.2.1 (by decide), ?_⟩
  · have hr := h.2.2.2.2.2.2.1 (by decide)
    simpa using hr
  · have hc := h.2.2.2.2.2.2.2.2 buildEnv stW2b
      { manifestId := "mid", pluginName := "plug", node := { id := "n" } }
      [] [] [] (by decide) (by decide)
    rw [hc]
    decide

/-! ### Claim C7 -/

/-- The artifact path computed by `processNodeManifest`:
`<siteRoot>/public/__node-manifests/<pluginName>/<fileNameBase>.json`. -/
def manifestFilePathOf (env : Env) (st : State) (m : INodeManifest) :
    String :=
  joinPath [st.programDirectory, "public", "__node-manifests",
    m.pluginName, fileNameBaseOf env m.manifestId ++ ".json"]

/-- The manifest object `processNodeManifest` writes for a request whose
node exists. -/
def finalManifestOf (env : Env) (st : State) (m : INodeManifest) :
    INodeManifestOut :=
  { node := m.node,
    page := (findPageOwnedByNodeId env st m.node.id).page,
    foundPageBy := (findPageOwnedByNodeId env st m.node.id).foundPageBy }

/-- C7: for a request whose node exists, the filename stem is the manifest
id sanitised (each reserved character replaced by a hyphen) exactly when
the platform is `win32` and unmodified otherwise — on `win32` the id
`"a:b/c"` becomes `"a-b-c"` — and the artifact is written at
`<siteRoot>/public/__node-manifests/<pluginName>/<stem>.json` after the
containing directory is ensured, overwriting any prior file at that
path. -/
theorem c7_artifact_write (env : Env) (st : State) (m : INodeManifest)
    (errIds : List String) (pm : List (String × String))
    (fs0 : List (String × INodeManifestOut))
    (hnode : (getNode st m.node.id).isSome = true) :
    (processNodeManifest env st m errIds pm fs0).result
      = some (finalManifestOf env st m) ∧
    (processNodeManifest env st m errIds pm fs0).fs
      = alistSet fs0 (manifestFilePathOf env st m)
          (finalManifestOf env st m) ∧
    alistGet (processNodeManifest env st m errIds pm fs0).fs
        (manifestFilePathOf env st m) = some (finalManifestOf env st m) ∧
    (processNodeManifest env st m errIds pm fs0).ensuredDirs
      = [dirname (manifestFilePathOf env st m)] ∧
    (env.platform = "win32" →
      fileNameBaseOf env m.manifestId
        = sanitizeFileNameBase m.manifestId) ∧
    (env.platform ≠ "win32" →
      fileNameBaseOf env m.manifestId = m.manifestId) ∧
    sanitizeFileNameBase "a:b/c" = "a-b-c" := by
  obtain ⟨nd, hnd⟩ := Option.isSome_iff_exists.mp hnode
  refine ⟨?_, ?_, ?_, ?_, ?_, ?_, by decide⟩
  · simp [processNodeManifest, hnd, finalManifestOf]
  · simp [processNodeManifest, hnd, finalManifestOf, manifestFilePathOf]
  · have hfs : (processNodeManifest env st m errIds pm fs0).fs
        = alistSet fs0 (manifestFilePathOf env st m)
            (finalManifestOf env st m) := by
      simp [processNodeManifest, hnd, finalManifestOf, manifestFilePathOf]
    rw [hfs]
    exact alistGet_alistSet_self fs0 _ _
  · simp [processNodeManifest, hnd, manifestFilePathOf]
  · intro hw
    simp [fileNameBaseOf, hw]
  · intro hw
    simp [fileNameBaseOf, hw]

/-- A pending request for the existing node `"n"` with an id containing
reserved characters. -/
def mReserved : INodeManifest :=
  { manifestId := "a:b/c", pluginName := "plug", node := { id := "n" } }

/-- A `win32` build environment. -/
def winEnv : Env := { buildEnv with platform := "win32" }

/-- Witness for C7 at a concrete input: on `win32` the artifact for
`mReserved` is written under the sanitised stem `a-b-c`, overwriting a
prior file at that path, and on the permissive platform the stem is the
raw manifest id. -/
theorem c7_artifact_write_witness :
    alistGet (processNodeManifest winEnv stW2b mReserved [] []
        [(manifestFilePathOf winEnv stW2b mReserved,
          { node := { id := "old" }, page := { path := Option.none },
            foundPageBy := FoundPageBy.none })]).fs
        (manifestFilePathOf winEnv stW2b mReserved)
      = some (finalManifestOf winEnv stW2b mReserved) ∧
    manifestFilePathOf winEnv stW2b mReserved
      = "/public/__node-manifests/plug/a-b-c.json" ∧
    fileNameBaseOf buildEnv mReserved.manifestId = "a:b/c" ∧
    sanitizeFileNameBase "a:b/c" = "a-b-c" := by
  have h := c7_artifact_write winEnv stW2b mReserved [] []
    [(manifestFilePathOf winEnv stW2b mReserved,
      { node := { id := "old" }, page := { path := Option.none },
        foundPageBy := FoundPageBy.none })] (by decide)
  exact ⟨h.2.2.1, by decide, by decide, h.2.2.2.2.2.2⟩

/-! ### Claim C8 -/

/-- The processed and failed counters of the batch fold advance by exactly
one per request. -/
theorem batch_counters (env : Env) (st : State) (l : List INodeManifest) :
    ∀ acc : BatchAcc,
      (l.foldl (processNodeManifestTask env st) acc).processed +
        (l.foldl (processNodeManifestTask env st) acc).failed =
        acc.processed + acc.failed + l.length := by
  induction l with
  | nil => intro acc; simp
  | cons m l ih =>
    intro acc
    simp only [List.foldl_cons, List.length_cons]
    rw [ih]
    simp only [processNodeManifestTask]
    by_cases hres : (processNodeManifest env st m acc.errIds acc.pathMap
        acc.fs).result.isSome = true
    · simp only [hres, if_true]
      omega
    · simp only [hres, Bool.false_eq_true, if_false]
      omega

/-- C8: with no pending manifests the batch returns `null` immediately —
no file written, no summary emitted, store untouched; otherwise it runs
every pending request read at batch start exactly once (the counters sum
to the pending count), emits the summary, dispatches the single delete
action that empties the pending collection, and returns the page-path
map. -/
theorem c8_batch (env : Env) (st : State)
    (fs0 : List (String × INodeManifestOut)) :
    (st.nodeManifests = [] →
      (processNodeManifests env st fs0).result = Option.none ∧
      (processNodeManifests env st fs0).fs = fs0 ∧
      (processNodeManifests env st fs0).summaryEmitted = false ∧
      (processNodeManifests env st fs0).storeAfter = st ∧
      (processNodeManifests env st fs0).processed = 0 ∧
      (processNodeManifests env st fs0).failed = 0) ∧
    (st.nodeManifests ≠ [] →
      (processNodeManifests env st fs0).processed +
          (processNodeManifests env st fs0).failed
        = st.nodeManifests.length ∧
      (processNodeManifests env st fs0).result
        = some (processNodeManifests env st fs0).pathMap ∧
      (processNodeManifests env st fs0).summaryEmitted = true ∧
      (processNodeManifests env st fs0).storeAfter
        = deleteNodeManifests st ∧
      (processNodeManifests env st fs0).storeAfter.nodeManifests = []) := by
  constructor
  · intro h
    simp [processNodeManifests, h]
  · intro h
    have hne : (st.nodeManifests.length == 0) = false := by
      cases hm : st.nodeManifests with
      | nil => exact absurd hm h
      | cons a l => simp [hm]
    refine ⟨?_, ?_, ?_, ?_, ?_⟩ <;>
      simp [processNodeManifests, hne, deleteNodeManifests,
        batch_counters env st st.nodeManifests]

/-- Witness for C8 at concrete inputs: the empty batch over `stW1` is a
no-op returning `null`, and the two-request batch completes both requests
and clears the store. -/
theorem c8_batch_witness :
    (processNodeManifests buildEnv stW1 []).result = Option.none ∧
    (processNodeManifests buildEnv stW1 []).summaryEmitted = false ∧
    (processNodeManifests buildEnv
      { stW1 with nodeManifests := [mReserved, mMissing] } []).processed +
      (processNodeManifests buildEnv
        { stW1 with nodeManifests := [mReserved, mMissing] } []).failed
      = 2 ∧
    (processNodeManifests buildEnv
      { stW1 with nodeManifests := [mReserved, mMissing] }
      []).storeAfter.nodeManifests = [] := by
  have h1 := (c8_batch buildEnv stW1 []).1 (by decide)
  have h2 := (c8_batch buildEnv
    { stW1 with nodeManifests := [mReserved, mMissing] } []).2
    (by decide)
  exact ⟨h1.1, h1.2.2.1, h2.1, h2.2.2.2.2⟩

/-! ### Claim C10 -/

theorem findPage_path_ne_empty {env : Env} {st : State} {n s : String}
    (h : (findPageOwnedByNodeId env st n).page.path = some s) : s ≠ "" := by
  rw [findPage_path] at h
  exact (orNull_eq_some h).2

theorem processNodeManifest_pathMap (env : Env) (st : State)
    (m : INodeManifest) (errIds : List String)
    (pm : List (String × String)) (fs0 : List (String × INodeManifestOut)) :
    (processNodeManifest env st m errIds pm fs0).pathMap =
      match resolvedPagePath env st m with
      | some s => alistSet pm s (fileNameBaseOf env m.manifestId)
      | Option.none => pm := by
  cases hnd : getNode st m.node.id with
  | none =>
    by_cases hv : verboseLogs env = true
    · simp [processNodeManifest, hnd, hv, resolvedPagePath]
    · have hv2 : verboseLogs env = false := by simpa using hv
      simp [processNodeManifest, hnd, hv2, resolvedPagePath]
  | some nd =>
    have hres : resolvedPagePath env st m
        = (findPageOwnedByNodeId env st m.node.id).page.path := by
      simp [resolvedPagePath, hnd]
    cases hrp : (findPageOwnedByNodeId env st m.node.id).page.path with
    | none =>
      rw [hres, hrp]
      simp [processNodeManifest, hnd, hrp, strTruthy]
    | some s =>
      have hs : s ≠ "" := findPage_path_ne_empty hrp
      rw [hres, hrp]
      simp [processNodeManifest, hnd, hrp, strTruthy, hs]

theorem task_pathMap_lookup (env : Env) (st : State) (acc : BatchAcc)
    (m : INodeManifest) (p : String) :
    alistGet (processNodeManifestTask env st acc m).pathMap p =
      (if resolvedPagePath env st m == some p then
        some (fileNameBaseOf env m.manifestId)
       else alistGet acc.pathMap p) := by
  simp only [processNodeManifestTask]
  rw [processNodeManifest_pathMap]
  cases hr : resolvedPagePath env st m with
  | none => simp
  | some s =>
    by_cases hsp : s = p
    · subst hsp
      simp [alistGet_alistSet_self]
    · have hb : ((some s : Option String) == some p) = false := by
        simp [hsp]
      simp only [hb, Bool.false_eq_true, if_false]
      exact alistGet_alistSet_ne acc.pathMap (fun hh => hsp hh.symm) _

theorem task_pathMap_nodup (env : Env) (st : State) {acc : BatchAcc}
    (h : (acc.pathMap.map Prod.fst).Nodup) (m : INodeManifest) :
    (((processNodeManifestTask env st acc m).pathMap).map Prod.fst).Nodup := by
  simp only [processNodeManifestTask]
  rw [processNodeManifest_pathMap]
  cases resolvedPagePath env st m with
  | none => exact h
  | some s => exact alistSet_keys_nodup h s _

theorem fold_pathMap_lookup (env : Env) (st : State) (p : String)
    (l : List INodeManifest) :
    ∀ (acc : BatchAcc) (o : Option INodeManifest),
      alistGet acc.pathMap p
          = o.map (fun m => fileNameBaseOf env m.manifestId) →
      alistGet ((l.foldl (processNodeManifestTask env st) acc)).pathMap p =
        (l.foldl (fun a x =>
            if resolvedPagePath env st x == some p then some x else a)
          o).map (fun m => fileNameBaseOf env m.manifestId) := by
  induction l with
  | nil => intro acc o h; simpa using h
  | cons m l ih =>
    intro acc o h
    simp only [List.foldl_cons]
    apply ih
    rw [task_pathMap_lookup]
    by_cases hm : (resolvedPagePath env st m == some p) = true
    · simp [hm]
    · have hm2 : (resolvedPagePath env st m == some p) = false := by
        simpa using hm
      simp [hm2, h]

theorem fold_pathMap_nodup (env : Env) (st : State)
    (l : List INodeManifest) :
    ∀ acc : BatchAcc, (acc.pathMap.map Prod.fst).Nodup →
      (((l.foldl (processNodeManifestTask env st) acc)).pathMap.map
        Prod.fst).Nodup := by
  induction l with
  | nil => intro acc h; simpa using h
  | cons m l ih =>
    intro acc h
    simp only [List.foldl_cons]
    exact ih _ (task_pathMap_nodup env st h m)

/-- C10: the batch page-path map has at most one entry per page path (its
keys are nodup), and its entry at `p` is the sanitised file name stem of
the last request in processing order whose resolved page path is `p` —
later requests silently overwrite earlier ones, and requests resolving to
a null page path contribute nothing. -/
theorem c10_path_map (env : Env) (st : State)
    (fs0 : List (String × INodeManifestOut)) (p : String) :
    alistGet (processNodeManifests env st fs0).pathMap p =
      (lastWith (fun m => resolvedPagePath env st m == some p)
        st.nodeManifests).map (fun m => fileNameBaseOf env m.manifestId) ∧
    ((processNodeManifests env st fs0).pathMap.map Prod.fst).Nodup := by
  by_cases h0 : (st.nodeManifests.length == 0) = true
  · have hnil : st.nodeManifests = [] := by
      cases hm : st.nodeManifests with
      | nil => rfl
      | cons a l => rw [hm] at h0; simp at h0
    constructor
    · simp [processNodeManifests, hnil, lastWith, alistGet]
    · simp [processNodeManifests, hnil]
  · have hne : (st.nodeManifests.length == 0) = false := by
      simpa using h0
    have hpm : (processNodeManifests env st fs0).pathMap =
        (st.nodeManifests.foldl (processNodeManifestTask env st)
          { errIds := [], pathMap := [], fs := fs0, processed := 0,
            failed := 0, reportedErrors := [], infos := [] }).pathMap := by
      simp [processNodeManifests, hne]
    constructor
    · rw [hpm]
      exact fold_pathMap_lookup env st p st.nodeManifests _ Option.none rfl
    · rw [hpm]
      exact fold_pathMap_nodup env st st.nodeManifests _ (by simp)

end NodeManifest
